import Mathlib

/-!
Verification of the `dendrite` branch-prediction simulator core.

This file gives a shallow embedding of the TAGE predictor core of the
repository (saturating counters, the global history register, the folded
history register, and the TAGE predictor itself), translated from
`src/dendrite/src/predictor/counter.rs`, `src/dendrite/src/history.rs`,
`src/dendrite/src/predictor/tage.rs`, and the TAGE component/entry code
in `src/src/predictor/tage/component.rs`, together with theorems that
settle the spec claims.

Modelling conventions:
 - `u8` values are `Nat` with explicit `% 256` where wrap-around matters
   (release-mode Rust semantics; places where debug-mode Rust would
   instead panic on overflow are noted in comments).
 - `usize` values are plain `Nat`; places where Rust `usize` arithmetic
   would panic on underflow are modelled with a `checked` variant
   returning `Option`.
 - `BitVec<usize, Lsb0>` is `List Bool`, index 0 first; `load::<usize>()`
   reads the list little-endian (index i has weight 2 ^ i).
 - Rust function-pointer strategy fields (`IndexStrategy`, `TagStrategy`)
   become function-valued fields from the component data to `Nat`.
 - The diagnostic statistics vectors attached to entries in the source
   (creation time, per-entry PC sets) are omitted; no operation reads them.
-/

/-- Branch outcome: taken or not-taken (`src/dendrite/src/branch.rs`). -/
inductive Outcome where
  | T : Outcome
  | N : Outcome
deriving DecidableEq, Repr

/-- Negation of an outcome (`impl Not for Outcome`). -/
def Outcome.not : Outcome → Outcome
  | .T => .N
  | .N => .T

/-- Configuration for a saturating counter
(`SaturatingCounterConfig` in `counter.rs`); the two limits are `u8`. -/
structure SaturatingCounterConfig where
  max_t_state : Nat
  max_n_state : Nat
  default_state : Outcome
deriving DecidableEq, Repr

/-- An N-bit saturating counter (`SaturatingCounter` in `counter.rs`). -/
structure SaturatingCounter where
  cfg : SaturatingCounterConfig
  state : Outcome
  ctr : Nat
deriving DecidableEq, Repr

/-- `SaturatingCounterConfig::build`. -/
def SaturatingCounterConfig.build (cfg : SaturatingCounterConfig) :
    SaturatingCounter :=
  { cfg := cfg, state := cfg.default_state, ctr := 0 }

/-- The limit selected by the current direction (the `lim` local used in
`strengthen` and `set_strength`). -/
def SaturatingCounter.lim (c : SaturatingCounter) : Nat :=
  match c.state with
  | .T => c.cfg.max_t_state
  | .N => c.cfg.max_n_state

/-- `SaturatingCounter::strengthen`: `self.ctr = (self.ctr + 1).clamp(0, lim)`.
The `u8` addition wraps at 256 (debug-mode Rust would panic there). -/
def SaturatingCounter.strengthen (c : SaturatingCounter) : SaturatingCounter :=
  { c with ctr := min ((c.ctr + 1) % 256) c.lim }

/-- `SaturatingCounter::weaken`: decrement via `checked_sub`; at zero, flip
the direction and leave the strength at zero. -/
def SaturatingCounter.weaken (c : SaturatingCounter) : SaturatingCounter :=
  if c.ctr = 0 then { c with state := c.state.not }
  else { c with ctr := c.ctr - 1 }

/-- `SaturatingCounter::set_strength`: write the strength clamped to the
current direction limit. -/
def SaturatingCounter.set_strength (c : SaturatingCounter) (val : Nat) :
    SaturatingCounter :=
  { c with ctr := min val c.lim }

/-- `SaturatingCounter::set_direction`: force the direction, strength kept. -/
def SaturatingCounter.set_direction (c : SaturatingCounter) (o : Outcome) :
    SaturatingCounter :=
  { c with state := o }

/-- `StatefulPredictor::predict` for `SaturatingCounter`. -/
def SaturatingCounter.predict (c : SaturatingCounter) : Outcome := c.state

/-- `StatefulPredictor::reset` for `SaturatingCounter`. -/
def SaturatingCounter.reset (c : SaturatingCounter) : SaturatingCounter :=
  { c with state := c.cfg.default_state, ctr := 0 }

/-- `StatefulPredictor::update` for `SaturatingCounter`. -/
def SaturatingCounter.update (c : SaturatingCounter) (outcome : Outcome) :
    SaturatingCounter :=
  if outcome ≠ c.predict then c.weaken else c.strengthen

/-- The invariant of spec P1: the strength never exceeds the limit that
corresponds to the current direction. -/
abbrev SaturatingCounter.inv (c : SaturatingCounter) : Prop :=
  c.ctr ≤ c.lim

/-- Value of a bit list read little-endian, as `BitSlice::load::<usize>()`
does for `Lsb0` data (index i has weight 2 ^ i). -/
def bitsToNat (l : List Bool) : Nat :=
  l.foldr (fun b acc => (if b then 1 else 0) + 2 * acc) 0

/-- Split a bit list into consecutive chunks of `m` bits, the last chunk
possibly shorter, as `BitSlice::chunks(m)` does: chunk `i` holds the `m`
(or fewer, for the last chunk) bits starting at position `i * m`, and
there are `⌈len / m⌉` chunks.  Rust panics when `m = 0`; the model
returns `[]` there. -/
def chunksOf (m : Nat) (l : List Bool) : List (List Bool) :=
  (List.range ((l.length + m - 1) / m)).map (fun i => (l.drop (i * m)).take m)

/-- The global history register (`HistoryRegister` in `history.rs`): a
`BitVec<usize, Lsb0>` with bit 0 the newest outcome.  The separate `len`
field of the source always equals `data.len()` and is dropped. -/
structure HistoryRegister where
  data : List Bool
deriving DecidableEq, Repr

namespace HistoryRegister

/-- `HistoryRegister::new`: all bits zero. -/
def new (len : Nat) : HistoryRegister := ⟨List.replicate len false⟩

/-- `HistoryRegister::shift_by`: `BitVec::shift_right(n)` moves bits toward
higher indices; the bottom `n` bits become zero and the top `n` bits are
discarded. -/
def shift_by (h : HistoryRegister) (n : Nat) : HistoryRegister :=
  ⟨(List.replicate n false ++ h.data).take h.data.length⟩

/-- `ghr.data_mut().set(i, b)`. -/
def set (h : HistoryRegister) (i : Nat) (b : Bool) : HistoryRegister :=
  ⟨h.data.set i b⟩

/-- `HistoryRegister::fold`: XOR-fold the bits of `[lo..=hi]` into
`output_bits`-bit chunks, then mask.  The Rust range slice `[lo..=hi]`
is modelled with `drop`/`take`. -/
def fold (h : HistoryRegister) (lo hi output_bits : Nat) : Nat :=
  let output_mask := (1 <<< output_bits) - 1
  let slice := (h.data.drop lo).take (hi - lo + 1)
  let res := (chunksOf output_bits slice).foldl (fun res x => res ^^^ bitsToNat x) 0
  res &&& output_mask

end HistoryRegister

/-- Rotate a list right by one position, as `BitVec::rotate_right(1)` does:
the last element moves to the front. -/
def rotr1 {α : Type} (l : List α) : List α :=
  match l.getLast? with
  | none => []
  | some b => b :: l.dropLast

/-- The folded history register (`FoldedHistoryRegister` in `history.rs`):
`output_size` bits of folded history over the GHR window `[lo..=hi]`. -/
structure FoldedHistoryRegister where
  data : List Bool
  output_size : Nat
  lo : Nat
  hi : Nat
deriving DecidableEq, Repr

namespace FoldedHistoryRegister

/-- `FoldedHistoryRegister::new`: all bits zero. -/
def new (output_size lo hi : Nat) : FoldedHistoryRegister :=
  { data := List.replicate output_size false, output_size := output_size,
    lo := lo, hi := hi }

/-- `FoldedHistoryRegister::output_usize`. -/
def output_usize (f : FoldedHistoryRegister) : Nat := bitsToNat f.data

/-- `FoldedHistoryRegister::update`, translated line by line: read the
newest (`ghr[lo]`) and oldest (`ghr[hi]`) bits of the window, XOR them
with CSR bits 0 and `(hi - lo) % output_size`, rotate the CSR right by
one bit, then write the two computed bits back at those positions. -/
def update (f : FoldedHistoryRegister) (ghr : HistoryRegister) :
    FoldedHistoryRegister :=
  let slice := (ghr.data.drop f.lo).take (f.hi - f.lo + 1)
  let ghist_size := f.hi - f.lo
  let index := ghist_size % f.output_size
  let newest_bit := slice.headD false
  let oldest_bit := slice.getLastD false
  let first_bit := Bool.xor newest_bit (f.data.getD 0 false)
  let last_bit := Bool.xor oldest_bit (f.data.getD index false)
  let rotated := rotr1 f.data
  { f with data := (rotated.set 0 first_bit).set index last_bit }

end FoldedHistoryRegister

/-- Replace the element at position `i`, mirroring mutation through a Rust
`&mut` reference obtained by index. -/
def listModify {α : Type} (f : α → α) : List α → Nat → List α
  | [], _ => []
  | a :: as, 0 => f a :: as
  | a :: as, n + 1 => a :: listModify f as n

/-- Identifies a component of a `TAGEPredictor` (`TAGEProvider` in
`tage.rs`). -/
inductive TAGEProvider where
  | Base : TAGEProvider
  | Tagged : Nat → TAGEProvider
deriving DecidableEq, Repr

/-- Output of `TAGEPredictor::predict` (`TAGEPrediction` in `tage.rs`). -/
structure TAGEPrediction where
  provider : TAGEProvider
  outcome : Outcome
  idx : Nat
  tag : Nat
  alt_provider : TAGEProvider
  alt_outcome : Outcome
  alt_idx : Nat
  alt_tag : Nat
deriving DecidableEq, Repr

/-- An entry in a tagged TAGE component (`TAGEEntry` in
`src/src/predictor/tage/component.rs`; the dendrite crate re-exports the
same entry type from its `component` module).  The diagnostic `updates`
counter and per-entry statistics are omitted. -/
structure TAGEEntry where
  ctr : SaturatingCounter
  useful_bits : Nat
  useful : Nat
  tag : Option Nat
deriving DecidableEq, Repr

/-- An arbitrary entry, used as the (never reached) default of list reads
that model Rust's panicking index operator. -/
def defaultEntry : TAGEEntry :=
  { ctr := SaturatingCounterConfig.build ⟨0, 0, .N⟩, useful_bits := 0,
    useful := 0, tag := none }

namespace TAGEEntry

/-- `TAGEEntry::predict`. -/
def predict (e : TAGEEntry) : Outcome := e.ctr.predict

/-- `TAGEEntry::tag_matches`. -/
def tag_matches (e : TAGEEntry) (tag : Nat) : Bool :=
  match e.tag with
  | some val => val == tag
  | none => false

/-- `TAGEEntry::increment_useful`:
`self.useful = (self.useful + 1).clamp(0, (1 << self.useful_bits) - 1)`,
with `u8` wrap-around on the addition. -/
def increment_useful (e : TAGEEntry) : TAGEEntry :=
  { e with useful := min ((e.useful + 1) % 256) ((1 <<< e.useful_bits) - 1) }

/-- `TAGEEntry::decrement_useful`:
`self.useful = (self.useful - 1).clamp(0, (1 << self.useful_bits) - 1)`.
The `u8` subtraction is performed before the clamp; at `useful = 0` it
underflows (debug-mode Rust panics; release-mode Rust wraps to 255, which
is modelled here as `+ 255` modulo 256). -/
def decrement_useful (e : TAGEEntry) : TAGEEntry :=
  { e with useful := min ((e.useful + 255) % 256) ((1 <<< e.useful_bits) - 1) }

/-- `TAGEEntry::invalidate`: reset the counter, zero usefulness, clear tag. -/
def invalidate (e : TAGEEntry) : TAGEEntry :=
  { e with ctr := e.ctr.reset, useful := 0, tag := none }

end TAGEEntry

/-- The data of a tagged TAGE component (`TAGEComponent` plus the
non-strategy fields of its `TAGEComponentConfig`): entry table, folded
history register, and configuration scalars.  The configured history
window `ghr_range` always equals the CSR window and is represented once,
inside `csr`. -/
structure TAGEComponentData where
  size : Nat
  tag_bits : Nat
  useful_bits : Nat
  data : List TAGEEntry
  csr : FoldedHistoryRegister
deriving DecidableEq, Repr

/-- A tagged TAGE component together with its index and tag strategies.
The Rust strategies are function pointers receiving `&TAGEComponent`;
here they are function-valued fields over the component data. -/
structure TAGEComponent where
  d : TAGEComponentData
  index_strat : TAGEComponentData → Nat → Nat
  tag_strat : TAGEComponentData → Nat → Nat

namespace TAGEComponent

/-- `PredictorTable::index_mask`. -/
def index_mask (c : TAGEComponent) : Nat := c.d.size - 1

/-- `PredictorTable::get_index` for `TAGEComponent`: strategy output masked
with `size - 1`. -/
def get_index (c : TAGEComponent) (pc : Nat) : Nat :=
  c.index_strat c.d pc &&& c.index_mask

/-- `TaggedPredictorTable::get_tag` for `TAGEComponent`. -/
def get_tag (c : TAGEComponent) (pc : Nat) : Nat :=
  c.tag_strat c.d pc

/-- `PredictorTable::get_entry` for `TAGEComponent`. -/
def get_entry (c : TAGEComponent) (idx : Nat) : TAGEEntry :=
  c.d.data.getD (idx &&& c.index_mask) defaultEntry

/-- Mutation through `PredictorTable::get_entry_mut`. -/
def modify_entry (c : TAGEComponent) (idx : Nat) (f : TAGEEntry → TAGEEntry) :
    TAGEComponent :=
  { c with d := { c.d with data := listModify f c.d.data (idx &&& c.index_mask) } }

/-- `TAGEComponent::reset_useful_bits`: zero every entry's usefulness
counter; counters and tags untouched. -/
def reset_useful_bits (c : TAGEComponent) : TAGEComponent :=
  { c with d := { c.d with data := c.d.data.map (fun e => { e with useful := 0 }) } }

/-- Does the entry selected by this input match the computed tag?  (The
loop body condition of `TAGEPredictor::predict`.) -/
def matches_input (c : TAGEComponent) (pc : Nat) : Bool :=
  (c.get_entry (c.get_index pc)).tag_matches (c.get_tag pc)

end TAGEComponent

/-- An arbitrary tagged component, the default of list reads that model
Rust's panicking index operator. -/
def defaultComp : TAGEComponent :=
  { d := { size := 0, tag_bits := 0, useful_bits := 0, data := [],
           csr := FoldedHistoryRegister.new 0 0 0 },
    index_strat := fun _ _ => 0, tag_strat := fun _ _ => 0 }

/-- The data of the base component (`TAGEBaseComponent`): a direct-mapped
table of saturating counters. -/
structure TAGEBaseData where
  size : Nat
  data : List SaturatingCounter
deriving DecidableEq, Repr

/-- The base component with its index strategy. -/
structure TAGEBaseComponent where
  d : TAGEBaseData
  index_strat : TAGEBaseData → Nat → Nat

namespace TAGEBaseComponent

/-- `PredictorTable::get_index` for `TAGEBaseComponent`. -/
def get_index (b : TAGEBaseComponent) (pc : Nat) : Nat :=
  b.index_strat b.d pc &&& (b.d.size - 1)

/-- `PredictorTable::get_entry` for `TAGEBaseComponent`. -/
def get_entry (b : TAGEBaseComponent) (idx : Nat) : SaturatingCounter :=
  b.d.data.getD (idx &&& (b.d.size - 1)) (SaturatingCounterConfig.build ⟨0, 0, .N⟩)

/-- Mutation through `PredictorTable::get_entry_mut`. -/
def modify_entry (b : TAGEBaseComponent) (idx : Nat)
    (f : SaturatingCounter → SaturatingCounter) : TAGEBaseComponent :=
  { b with d := { b.d with data := listModify f b.d.data (idx &&& (b.d.size - 1)) } }

end TAGEBaseComponent

/-- Aggregate statistics (`TAGEStats` in `stat.rs`). -/
structure TAGEStats where
  base_hits : Nat
  base_miss : Nat
  comp_hits : List Nat
  comp_miss : List Nat
  alcs : Nat
  failed_alcs : Nat
  resets : Nat
  clk : Nat
deriving DecidableEq, Repr

/-- `TAGEStats::new`. -/
def TAGEStats.new (n : Nat) : TAGEStats :=
  { base_hits := 0, base_miss := 0, comp_hits := List.replicate n 0,
    comp_miss := List.replicate n 0, alcs := 0, failed_alcs := 0,
    resets := 0, clk := 0 }

/-- The TAGE predictor (`TAGEPredictor` in `tage.rs`): one base component,
an ordered list of tagged components (longest history first), the 8-bit
reset counter, and statistics.  The `cfg` copy kept by the source is
omitted (it is never consulted after `build`). -/
structure TAGEPredictor where
  base : TAGEBaseComponent
  comp : List TAGEComponent
  reset_ctr : Nat
  stat : TAGEStats

namespace TAGEPredictor

/-- `TAGEPredictor::num_tagged_components`. -/
def num_tagged_components (p : TAGEPredictor) : Nat := p.comp.length

/-- `TAGEPredictor::shortest_tagged_component`: `num_tagged_components() - 1`
with truncating `Nat` subtraction (Rust `usize` would panic at zero
components; see `shortestTaggedChecked`). -/
def shortest_tagged_component (p : TAGEPredictor) : Nat :=
  p.num_tagged_components - 1

/-- `shortest_tagged_component` with Rust's `usize` underflow made explicit:
`none` models the debug-mode panic of `0 - 1`. -/
def shortestTaggedChecked (p : TAGEPredictor) : Option Nat :=
  if p.comp.length = 0 then none else some (p.comp.length - 1)

/-- The walk over tagged components in `TAGEPredictor::predict`: scan the
components in order (position `j`), stopping at the first entry whose
stored tag matches the computed tag; the running result's provider data
moves into the alt fields at the match. -/
def predictGo (pc : Nat) : TAGEPrediction → List TAGEComponent → Nat →
    TAGEPrediction
  | res, [], _ => res
  | res, c :: rest, j =>
    let index := c.get_index pc
    let tag := c.get_tag pc
    let entry := c.get_entry index
    if entry.tag_matches tag then
      { res with
        alt_provider := res.provider, alt_outcome := res.outcome,
        alt_idx := res.idx, alt_tag := res.tag,
        provider := .Tagged j, outcome := entry.predict,
        idx := index, tag := tag }
    else
      predictGo pc res rest (j + 1)

/-- `TAGEPredictor::predict`. -/
def predict (p : TAGEPredictor) (pc : Nat) : TAGEPrediction :=
  let base_idx := p.base.get_index pc
  let base_entry := p.base.get_entry base_idx
  let default_outcome := base_entry.predict
  let init : TAGEPrediction :=
    { provider := .Base, outcome := default_outcome, idx := base_idx,
      tag := 0, alt_provider := .Base, alt_outcome := default_outcome,
      alt_idx := base_idx, alt_tag := 0 }
  predictGo pc init p.comp 0

/-- The candidate range of `TAGEPredictor::alloc`: all components with a
longer history than the provider.  `Base` gives
`0..=shortest_tagged_component()`; `Tagged(idx)` gives `0..=(idx - 1)`. -/
def allocRange (p : TAGEPredictor) (provider : TAGEProvider) : List Nat :=
  match provider with
  | .Base => List.range (p.shortest_tagged_component + 1)
  | .Tagged idx => List.range idx

/-- Is a candidate eligible: the entry at the index computed for this
input has its `useful` counter equal to zero. -/
def eligible (p : TAGEPredictor) (pc idx : Nat) : Bool :=
  let c := p.comp.getD idx defaultComp
  (c.get_entry (c.get_index pc)).useful == 0

/-- The eligible candidates collected by the allocation loop, in component
order. -/
def allocCandidates (p : TAGEPredictor) (pc : Nat) (provider : TAGEProvider) :
    List Nat :=
  (p.allocRange provider).filter (p.eligible pc)

/-- The sampling weight `1 << idx` given to candidate `idx` in the
tie-breaking distribution of `TAGEPredictor::alloc`. -/
def allocWeight (idx : Nat) : Nat := 1 <<< idx

/-- `TAGEPredictor::alloc`.  The `rand::thread_rng` draw through
`WeightedIndex::sample` is modelled by the external function `sample`,
which receives the weight list and picks a position into the candidate
list. -/
def alloc (p : TAGEPredictor) (pc : Nat) (provider : TAGEProvider)
    (sample : List Nat → Nat) : Option Nat :=
  if provider = .Tagged 0 then none
  else
    let candidates := p.allocCandidates pc provider
    if candidates.isEmpty then none
    else if candidates.length == 1 then candidates.head?
    else
      let weights := candidates.map allocWeight
      some (candidates.getD (sample weights) 0)

end TAGEPredictor

/-- First half of `TAGEPredictor::update_incorrect`: apply the counter
update to the entry in the providing component and count the miss. -/
def providerPenalty (p : TAGEPredictor) (pc : Nat) (prediction : TAGEPrediction)
    (outcome : Outcome) : TAGEPredictor :=
  match prediction.provider with
  | .Base =>
    { p with
      base := p.base.modify_entry (p.base.get_index pc) (fun e => e.update outcome),
      stat := { p.stat with base_miss := p.stat.base_miss + 1 } }
  | .Tagged idx =>
    { p with
      comp := listModify
        (fun c => c.modify_entry (c.get_index pc)
          (fun e => { e with ctr := e.ctr.update outcome })) p.comp idx,
      stat := { p.stat with
                comp_miss := listModify (fun n => n + 1) p.stat.comp_miss idx } }

/-- Second half of `TAGEPredictor::update_incorrect`: try to allocate; on
success reinitialize the chosen entry (invalidate, write the computed
tag, zero usefulness, counter set to the resolved outcome at strength 0)
and saturating-increment `reset_ctr`; on failure saturating-decrement it. -/
def allocPhase (p : TAGEPredictor) (pc : Nat) (provider : TAGEProvider)
    (outcome : Outcome) (sample : List Nat → Nat) : TAGEPredictor :=
  match p.alloc pc provider sample with
  | some idx =>
    { p with
      comp := listModify
        (fun c =>
          c.modify_entry (c.get_index pc) (fun e =>
            let e := e.invalidate
            let e := { e with tag := some (c.get_tag pc), useful := 0 }
            { e with ctr := (e.ctr.set_direction outcome).set_strength 0 }))
        p.comp idx,
      stat := { p.stat with alcs := p.stat.alcs + 1 },
      reset_ctr := min (p.reset_ctr + 1) 255 }
  | none =>
    { p with
      stat := { p.stat with failed_alcs := p.stat.failed_alcs + 1 },
      reset_ctr := p.reset_ctr - 1 }

namespace TAGEPredictor

/-- `TAGEPredictor::update_incorrect`. -/
def update_incorrect (p : TAGEPredictor) (pc : Nat)
    (prediction : TAGEPrediction) (outcome : Outcome)
    (sample : List Nat → Nat) : TAGEPredictor :=
  allocPhase (providerPenalty p pc prediction outcome) pc prediction.provider
    outcome sample

/-- `TAGEPredictor::update_correct`: strengthen the providing entry; for a
tagged provider, increment usefulness first when the alternate
prediction differs from the resolved outcome. -/
def update_correct (p : TAGEPredictor) (pc : Nat)
    (prediction : TAGEPrediction) (outcome : Outcome) : TAGEPredictor :=
  match prediction.provider with
  | .Base =>
    { p with
      base := p.base.modify_entry (p.base.get_index pc) (fun e => e.update outcome),
      stat := { p.stat with base_hits := p.stat.base_hits + 1 } }
  | .Tagged idx =>
    { p with
      comp := listModify
        (fun c => c.modify_entry (c.get_index pc)
          (fun e =>
            let e1 := if prediction.alt_outcome ≠ outcome
                      then e.increment_useful else e
            { e1 with ctr := e1.ctr.update outcome })) p.comp idx,
      stat := { p.stat with
                comp_hits := listModify (fun n => n + 1) p.stat.comp_hits idx } }

/-- The correct/incorrect dispatch at the head of `TAGEPredictor::update`. -/
def updateCore (p : TAGEPredictor) (pc : Nat) (prediction : TAGEPrediction)
    (outcome : Outcome) (sample : List Nat → Nat) : TAGEPredictor :=
  if prediction.outcome ≠ outcome then
    p.update_incorrect pc prediction outcome sample
  else
    p.update_correct pc prediction outcome

/-- The periodic-reset tail of `TAGEPredictor::update`: when `reset_ctr`
has saturated at `u8::MAX`, zero it and reset the useful bits of every
tagged component. -/
def resetPhase (p : TAGEPredictor) : TAGEPredictor :=
  if p.reset_ctr = 255 then
    { p with
      reset_ctr := 0,
      stat := { p.stat with resets := p.stat.resets + 1 },
      comp := p.comp.map (fun c => c.reset_useful_bits) }
  else p

/-- `TAGEPredictor::update`: dispatch, periodic reset, clock tick. -/
def update (p : TAGEPredictor) (pc : Nat) (prediction : TAGEPrediction)
    (outcome : Outcome) (sample : List Nat → Nat) : TAGEPredictor :=
  let p2 := resetPhase (p.updateCore pc prediction outcome sample)
  { p2 with stat := { p2.stat with clk := p2.stat.clk + 1 } }

/-- `TAGEPredictor::update_history`: fan the GHR out to every tagged
component's CSR. -/
def update_history (p : TAGEPredictor) (ghr : HistoryRegister) : TAGEPredictor :=
  { p with comp := p.comp.map (fun c => { c with d := { c.d with csr := c.d.csr.update ghr } }) }

end TAGEPredictor

/-!
Concrete fixtures used by the claim theorems, their counterexamples and
witnesses.
-/

/-- Shorthand for building a saturating counter. -/
def mkCtr (t n : Nat) (d : Outcome) : SaturatingCounter :=
  SaturatingCounterConfig.build ⟨t, n, d⟩

/-- A deterministic stand-in for the tie-breaking RNG draw. -/
def sample0 : List Nat → Nat := fun _ => 0

/-- A tagged entry holding tag 5, used to force tag matches. -/
def entry5 : TAGEEntry :=
  { ctr := mkCtr 4 4 .T, useful_bits := 1, useful := 0, tag := some 5 }

/-- A two-entry tagged component whose strategies always yield index 0 and
tag 5, over the GHR window `[lo..=hi]`. -/
def comp5 (lo hi : Nat) : TAGEComponent :=
  { d := { size := 2, tag_bits := 8, useful_bits := 1,
           data := [entry5, entry5], csr := FoldedHistoryRegister.new 1 lo hi },
    index_strat := fun _ _ => 0, tag_strat := fun _ _ => 5 }

/-- A predictor with two tagged components, windows `[0..=63]` (position 0)
and `[0..=7]` (position 1), whose entries both match the computed tag. -/
def pred2 : TAGEPredictor :=
  { base := { d := { size := 2, data := [mkCtr 4 4 .N, mkCtr 4 4 .N] },
              index_strat := fun _ _ => 0 },
    comp := [comp5 0 63, comp5 0 7],
    reset_ctr := 0, stat := TAGEStats.new 2 }

/-- A predictor with a single tagged component whose entry is eligible. -/
def pred1 : TAGEPredictor :=
  { base := { d := { size := 2, data := [mkCtr 4 4 .N, mkCtr 4 4 .N] },
              index_strat := fun _ _ => 0 },
    comp := [comp5 0 7],
    reset_ctr := 0, stat := TAGEStats.new 1 }

/-- A predictor with no tagged components. -/
def predEmpty : TAGEPredictor :=
  { base := { d := { size := 2, data := [mkCtr 4 4 .N, mkCtr 4 4 .N] },
              index_strat := fun _ _ => 0 },
    comp := [],
    reset_ctr := 0, stat := TAGEStats.new 0 }

/-- `pred2` with the reset counter saturated. -/
def pred255 : TAGEPredictor := { pred2 with reset_ctr := 255 }

/-- A concrete prediction record with the base component as provider. -/
def pr0 : TAGEPrediction :=
  { provider := .Base, outcome := .N, idx := 0, tag := 0,
    alt_provider := .Base, alt_outcome := .N, alt_idx := 0, alt_tag := 0 }

/-- GHR of length 4 after shifting a 1 into a fresh register. -/
def c1_ghr1 : HistoryRegister := ((HistoryRegister.new 4).shift_by 1).set 0 true

/-- CSR with 2 output bits over `[0..=3]` after one update against
`c1_ghr1`; at this point it still agrees with the scratch fold. -/
def c1_csr1 : FoldedHistoryRegister :=
  (FoldedHistoryRegister.new 2 0 3).update c1_ghr1

/-- The GHR after shifting in a second 1 bit. -/
def c1_ghr2 : HistoryRegister := (c1_ghr1.shift_by 1).set 0 true

/-- The CSR after the second update. -/
def c1_csr2 : FoldedHistoryRegister := c1_csr1.update c1_ghr2

/-- The 32 bits of `0xDEAD_BEEF`, most significant first, so that after
shifting them into the GHR one at a time the window `[0..=31]` holds the
pattern with bit 0 the least significant bit. -/
def deadbeefBits : List Bool :=
  ((List.range 32).reverse).map (fun i => Nat.testBit 0xDEADBEEF i)

/-- Scenario S3: drive `0xDEAD_BEEF` through a fresh 64-bit GHR with a
fresh 8-bit CSR over `[0..=31]`, calling the CSR update after each
one-bit shift; returns the final GHR and CSR. -/
def deadbeefRun : HistoryRegister × FoldedHistoryRegister :=
  deadbeefBits.foldl
    (fun st b =>
      let g := (st.1.shift_by 1).set 0 b
      (g, st.2.update g))
    (HistoryRegister.new 64, FoldedHistoryRegister.new 8 0 31)

/-- Drive a saturating counter through a list of resolved outcomes,
reading the prediction immediately before each update; returns the
prediction sequence and the final counter. -/
def runCounter : SaturatingCounter → List Outcome → List Outcome × SaturatingCounter
  | c, [] => ([], c)
  | c, o :: rest =>
    let res := runCounter (c.update o) rest
    (c.predict :: res.1, res.2)

/-- Scenario S2's counter: `L_T = L_N = 1`, default direction N. -/
def bimodalCounter : SaturatingCounter := mkCtr 1 1 .N

/-- Scenario S2's drive: outcomes N, N, T, T, T, T. -/
def bimodalRun : List Outcome × SaturatingCounter :=
  runCounter bimodalCounter [.N, .N, .T, .T, .T, .T]

/-- A counter with limits `L_T = 1`, `L_N = 0`, strengthened once in
direction T: its strength is 1, which exceeds the N-side limit. -/
def lopsidedCounter : SaturatingCounter := (mkCtr 1 0 .T).strengthen

/-- An entry with a 1-bit useful counter currently at zero. -/
def zeroUsefulEntry : TAGEEntry :=
  { ctr := mkCtr 4 4 .N, useful_bits := 1, useful := 0, tag := none }

/-!
Claim theorems.
-/

set_option maxRecDepth 100000

/-- Claim C1 (code bug).  The incremental CSR update does not maintain the
fold invariant: starting from a fresh 4-bit GHR and a fresh 2-bit CSR
over `[0..=3]`, after one shift-and-write plus update the CSR still
equals the scratch fold, but after a second shift-and-write plus update
the CSR holds 0 while `HistoryRegister::fold` over the same window gives
3.  This contradicts both the claim and the source's own documentation
of `FoldedHistoryRegister` (the result "should be equivalent to using
HistoryRegister::fold"). -/
theorem folded_update_breaks_fold_invariant :
    c1_csr1.output_usize = c1_ghr1.fold 0 3 2 ∧
    c1_csr2.output_usize = 0 ∧
    c1_ghr2.fold 0 3 2 = 3 ∧
    c1_csr2.output_usize ≠ c1_ghr2.fold 0 3 2 := by decide

/-- Claim C6 (counterexample).  Driving `0xDEAD_BEEF` into a fresh 64-bit
GHR one bit at a time with an 8-bit CSR over `[0..=31]` does not leave
the CSR holding `0x8C`. -/
theorem deadbeef_csr_not_0x8C :
    deadbeefRun.2.output_usize ≠ 0x8C := by decide

/-- Claim C6 (amended).  After the drive, the GHR window `[0..=31]` does
hold the pattern `0xDEAD_BEEF`, but the CSR holds `0xCA`; the scratch
fold of the window (the XOR of the four bytes, which is `0x22`, not the
claim's `0x8C`) is `0x22`, so the incremental CSR also disagrees with
the scratch fold here. -/
theorem deadbeef_csr_value :
    bitsToNat (deadbeefRun.1.data.take 32) = 0xDEADBEEF ∧
    deadbeefRun.2.output_usize = 0xCA ∧
    deadbeefRun.1.fold 0 31 8 = 0x22 ∧
    (0xDE ^^^ 0xAD ^^^ 0xBE ^^^ (0xEF : Nat)) = 0x22 := by decide

/-- Claim C7 (counterexample).  With `L_T = L_N = 1` and default N, the
outcome sequence N, N, T, T, T, T does not produce the prediction
sequence N, N, N, T, T, T: the fourth prediction is still N, because the
third T only weakens the counter from strength 1 to strength 0 and the
flip happens one step later. -/
theorem bimodal_sequence_cex :
    bimodalRun.1 ≠ [.N, .N, .N, .T, .T, .T] := by decide

/-- Claim C7 (amended).  The produced prediction sequence is
N, N, N, N, T, T, and the counter ends with direction T and strength 1. -/
theorem bimodal_sequence_result :
    bimodalRun.1 = [.N, .N, .N, .N, .T, .T] ∧
    bimodalRun.2.state = .T ∧ bimodalRun.2.ctr = 1 := by decide

/-- Claim C8 (counterexample).  `set_direction` does not preserve the
invariant `strength ≤ limit(direction)`: a counter with limits
`L_T = 1`, `L_N = 0` and strength 1 in direction T satisfies the
invariant, but after `set_direction(N)` its strength 1 exceeds the
N-side limit 0. -/
theorem counter_inv_set_direction_cex :
    lopsidedCounter.inv ∧ ¬ (lopsidedCounter.set_direction .N).inv := by decide

/-- Claim C9 (code bug).  `decrement_useful` is not saturating at zero:
on an entry with a 1-bit useful counter at 0, the `u8` subtraction
underflows before the clamp (debug-mode Rust panics; release-mode Rust
wraps to 255, which the clamp then turns into `2^U - 1 = 1`), so the
counter jumps to 1 instead of staying at 0.  `increment_useful` at the
top of the range does saturate as claimed. -/
theorem decrement_useful_at_zero :
    zeroUsefulEntry.useful = 0 ∧
    zeroUsefulEntry.decrement_useful.useful = 1 ∧
    ({ zeroUsefulEntry with useful := 1 } : TAGEEntry).increment_useful.useful = 1 := by
  decide

/-- Strengthening clamps at the current direction's limit, so the P1
invariant holds afterwards unconditionally. -/
lemma inv_strengthen (c : SaturatingCounter) : c.strengthen.inv :=
  Nat.min_le_right _ _

/-- Weakening preserves the P1 invariant: either the strength drops, or
the direction flips with the strength pinned at zero. -/
lemma inv_weaken (c : SaturatingCounter) (h : c.inv) : c.weaken.inv := by
  unfold SaturatingCounter.weaken
  split
  next h0 => show c.ctr ≤ _; omega
  next => exact le_trans (Nat.sub_le _ _) h

/-- A counter update is either a strengthen or a weaken, so it preserves
the P1 invariant. -/
lemma inv_update (c : SaturatingCounter) (h : c.inv) (o : Outcome) :
    (c.update o).inv := by
  unfold SaturatingCounter.update
  split
  · exact inv_weaken c h
  · exact inv_strengthen c

/-- Claim C8 (amended).  The invariant `strength ≤ limit(direction)` holds
in the freshly built state and is preserved by `strengthen`, `weaken`,
`update`, `reset` and `set_strength` for every configuration of the two
limits; `set_direction` preserves it exactly when the current strength
also fits under the new direction's limit (it forces the direction
without touching strength, so it can violate the invariant when the new
direction's limit is smaller than the current strength). -/
theorem counter_inv_preserved :
    (∀ cfg : SaturatingCounterConfig, cfg.build.inv) ∧
    (∀ c : SaturatingCounter, c.inv →
      c.strengthen.inv ∧ c.weaken.inv ∧ (∀ o, (c.update o).inv) ∧
      c.reset.inv ∧ (∀ v, (c.set_strength v).inv)) ∧
    (∀ (c : SaturatingCounter) (o : Outcome),
      (c.ctr ≤ (c.set_direction o).lim ↔ (c.set_direction o).inv)) := by
  refine ⟨fun cfg => Nat.zero_le _, fun c h => ?_, fun c o => Iff.rfl⟩
  exact ⟨inv_strengthen c, inv_weaken c h, inv_update c h,
    Nat.zero_le _, fun v => Nat.min_le_right _ _⟩

/-- Claim C8 witness: the preservation clauses applied to the concrete
counter `lopsidedCounter`, whose invariant hypothesis is discharged by
computation. -/
theorem counter_inv_preserved_witness :
    lopsidedCounter.weaken.inv ∧ (lopsidedCounter.update .N).inv :=
  ⟨(counter_inv_preserved.2.1 lopsidedCounter (by decide)).2.1,
   (counter_inv_preserved.2.1 lopsidedCounter (by decide)).2.2.1 .N⟩

/-- The result record produced when the walk of `predict` hits a matching
component `c` at overall position `j`: the running result's provider
data moves to the alt fields and the matching entry provides the rest. -/
def hitResult (res : TAGEPrediction) (c : TAGEComponent) (pc j : Nat) :
    TAGEPrediction :=
  { res with
    alt_provider := res.provider, alt_outcome := res.outcome,
    alt_idx := res.idx, alt_tag := res.tag,
    provider := .Tagged j, outcome := (c.get_entry (c.get_index pc)).predict,
    idx := c.get_index pc, tag := c.get_tag pc }

/-- The walk returns its running result unchanged when no component in the
remaining list matches. -/
lemma predictGo_nomatch (pc : Nat) :
    ∀ (l : List TAGEComponent) (res : TAGEPrediction) (j0 : Nat),
      (∀ c ∈ l, c.matches_input pc = false) →
      TAGEPredictor.predictGo pc res l j0 = res := by
  intro l
  induction l with
  | nil => intro res j0 _; rfl
  | cons c rest ih =>
    intro res j0 hall
    have hc : c.matches_input pc = false := hall c (List.mem_cons_self c rest)
    have hrest : ∀ x ∈ rest, x.matches_input pc = false :=
      fun x hx => hall x (List.mem_cons_of_mem c hx)
    simp only [TAGEPredictor.predictGo]
    rw [show (c.get_entry (c.get_index pc)).tag_matches (c.get_tag pc) = false from hc]
    simp only [Bool.false_eq_true, if_false]
    exact ih res (j0 + 1) hrest

/-- The walk stops at the first matching component: if position `j` is the
least matching position, the result is `hitResult` of the running
result at overall position `j0 + j`. -/
lemma predictGo_hit (pc : Nat) :
    ∀ (l : List TAGEComponent) (res : TAGEPrediction) (j0 j : Nat),
      j < l.length →
      (l.getD j defaultComp).matches_input pc = true →
      (∀ k, k < j → (l.getD k defaultComp).matches_input pc = false) →
      TAGEPredictor.predictGo pc res l j0 =
        hitResult res (l.getD j defaultComp) pc (j0 + j) := by
  intro l
  induction l with
  | nil => intro res j0 j hj; exact absurd hj (by simp)
  | cons c rest ih =>
    intro res j0 j hj hmatch hfirst
    cases j with
    | zero =>
      simp only [List.getD_cons_zero] at hmatch ⊢
      simp only [TAGEPredictor.predictGo]
      rw [show (c.get_entry (c.get_index pc)).tag_matches (c.get_tag pc) = true from hmatch]
      simp [hitResult]
    | succ j =>
      have hc : c.matches_input pc = false := by
        have := hfirst 0 (Nat.succ_pos j)
        simpa using this
      simp only [List.getD_cons_succ] at hmatch ⊢
      simp only [TAGEPredictor.predictGo]
      rw [show (c.get_entry (c.get_index pc)).tag_matches (c.get_tag pc) = false from hc]
      simp only [Bool.false_eq_true, if_false]
      have hrec := ih res (j0 + 1) j (by simpa using Nat.lt_of_succ_lt_succ hj)
        hmatch (fun k hk => by simpa using hfirst (k + 1) (Nat.succ_lt_succ hk))
      rw [hrec]
      have : j0 + 1 + j = j0 + (j + 1) := by omega
      rw [this]

/-- Claim C2 (amended).  The walk of `TAGEPredictor::predict` makes the
first tagged component that matches — from position 0, the longest
history window, toward the shortest — the provider, supplying
`outcome`, `idx` and `tag` from its entry; the previous provider fills
the alt fields, and because the walk stops at the first match the
previous provider is always the base component.  In particular, in the
concrete predictor `pred2` with both components over windows `[0..=63]`
(position 0) and `[0..=7]` (position 1) matching, the provider is the
`[0..=63]` component and the alt provider is `Base` (not the `[0..=7]`
component, as the original claim stated). -/
theorem tage_predict_first_match :
    (∀ (p : TAGEPredictor) (pc j : Nat),
      j < p.comp.length →
      (p.comp.getD j defaultComp).matches_input pc = true →
      (∀ k, k < j → (p.comp.getD k defaultComp).matches_input pc = false) →
      (p.predict pc).provider = .Tagged j ∧
      (p.predict pc).outcome =
        ((p.comp.getD j defaultComp).get_entry
          ((p.comp.getD j defaultComp).get_index pc)).predict ∧
      (p.predict pc).idx = (p.comp.getD j defaultComp).get_index pc ∧
      (p.predict pc).tag = (p.comp.getD j defaultComp).get_tag pc ∧
      (p.predict pc).alt_provider = .Base ∧
      (p.predict pc).alt_outcome = (p.base.get_entry (p.base.get_index pc)).predict ∧
      (p.predict pc).alt_idx = p.base.get_index pc ∧
      (p.predict pc).alt_tag = 0) ∧
    ((pred2.comp.getD 0 defaultComp).d.csr.lo = 0 ∧
     (pred2.comp.getD 0 defaultComp).d.csr.hi = 63 ∧
     (pred2.comp.getD 1 defaultComp).d.csr.lo = 0 ∧
     (pred2.comp.getD 1 defaultComp).d.csr.hi = 7 ∧
     (pred2.comp.getD 0 defaultComp).matches_input 0 = true ∧
     (pred2.comp.getD 1 defaultComp).matches_input 0 = true ∧
     (pred2.predict 0).provider = .Tagged 0 ∧
     (pred2.predict 0).alt_provider = .Base) := by
  constructor
  · intro p pc j hj hmatch hfirst
    have hwalk := fun res => predictGo_hit pc p.comp res 0 j hj hmatch hfirst
    unfold TAGEPredictor.predict
    simp only [hwalk]
    simp [hitResult, Nat.zero_add]
  · decide

/-- Claim C2 witness: the general clause applied to `pred2` at position 0,
with the match hypotheses discharged by computation. -/
theorem tage_predict_first_match_witness :
    (pred2.predict 0).provider = .Tagged 0 ∧
    (pred2.predict 0).outcome =
      ((pred2.comp.getD 0 defaultComp).get_entry
        ((pred2.comp.getD 0 defaultComp).get_index 0)).predict ∧
    (pred2.predict 0).idx = (pred2.comp.getD 0 defaultComp).get_index 0 ∧
    (pred2.predict 0).tag = (pred2.comp.getD 0 defaultComp).get_tag 0 ∧
    (pred2.predict 0).alt_provider = .Base ∧
    (pred2.predict 0).alt_outcome =
      (pred2.base.get_entry (pred2.base.get_index 0)).predict ∧
    (pred2.predict 0).alt_idx = pred2.base.get_index 0 ∧
    (pred2.predict 0).alt_tag = 0 :=
  tage_predict_first_match.1 pred2 0 0 (by decide) (by decide)
    (fun k hk => absurd hk (Nat.not_lt_zero k))

/-- Claim C2 (counterexample).  In `pred2` both tagged components match,
the provider is the position-0 (window `[0..=63]`) component, but the
alt provider is not the position-1 (window `[0..=7]`) component: the
walk breaks at the first match, so the alternate is the base. -/
theorem tage_predict_alt_is_base_cex :
    (pred2.comp.getD 0 defaultComp).matches_input 0 = true ∧
    (pred2.comp.getD 1 defaultComp).matches_input 0 = true ∧
    (pred2.predict 0).provider = .Tagged 0 ∧
    (pred2.predict 0).alt_provider ≠ .Tagged 1 := by decide

/-- Claim C3 (confirmed).  For a predictor with at least one tagged
component and a valid provider, allocation returns `None` exactly when
the provider is the longest-history tagged component `Tagged(0)` or no
component in the candidate range (all tagged components for `Base`,
positions `[0, i-1]` for `Tagged(i)`) has `useful = 0` at the index
computed for the input; and when the eligible set is a single
component, that component is selected. -/
theorem tage_alloc_none_iff :
    ∀ (p : TAGEPredictor) (pc : Nat) (provider : TAGEProvider)
      (sample : List Nat → Nat),
      0 < p.comp.length →
      (∀ i, provider = .Tagged i → i < p.comp.length) →
      ((p.alloc pc provider sample = none ↔
        provider = .Tagged 0 ∨
        ∀ j ∈ p.allocRange provider, p.eligible pc j = false) ∧
       (∀ j, p.allocCandidates pc provider = [j] →
        p.alloc pc provider sample = some j)) := by
  intro p pc provider sample _hlen _hvalid
  by_cases hp : provider = .Tagged 0
  · constructor
    · simp only [TAGEPredictor.alloc, hp, if_pos rfl]
      simp
    · intro j hj
      subst hp
      simp only [TAGEPredictor.allocCandidates, TAGEPredictor.allocRange,
        List.range_zero, List.filter_nil] at hj
      exact absurd hj (by simp)
  · have halloc : p.alloc pc provider sample =
        (if (p.allocCandidates pc provider).isEmpty then none
         else if (p.allocCandidates pc provider).length == 1 then
           (p.allocCandidates pc provider).head?
         else some ((p.allocCandidates pc provider).getD
           (sample ((p.allocCandidates pc provider).map TAGEPredictor.allocWeight)) 0)) := by
      unfold TAGEPredictor.alloc
      rw [if_neg hp]
    constructor
    · rw [halloc]
      constructor
      · intro hnone
        right
        rcases hcand : p.allocCandidates pc provider with _ | ⟨a, rest⟩
        · intro j hj
          have := List.filter_eq_nil.mp hcand j hj
          simpa using this
        · rw [hcand] at hnone
          simp only [List.isEmpty_cons, Bool.false_eq_true, if_false] at hnone
          split at hnone <;> simp_all
      · intro hdisj
        rcases hdisj with hdisj | hall
        · exact absurd hdisj hp
        · have hcand : p.allocCandidates pc provider = [] :=
            List.filter_eq_nil.mpr (fun j hj => by simp [hall j hj])
          rw [hcand]
          rfl
    · intro j hj
      rw [halloc, hj]
      rfl

/-- Claim C3 witness: in the one-component predictor `pred1` the eligible
set is exactly `[0]`, and allocation from the base provider selects
component 0. -/
theorem tage_alloc_none_iff_witness :
    pred1.alloc 0 .Base sample0 = some 0 :=
  (tage_alloc_none_iff pred1 0 .Base sample0 (by decide)
    (fun i h => TAGEProvider.noConfusion h)).2 0 (by decide)

/-- Claim C4 (counterexample).  In `pred2` both components are eligible
(candidate list `[0, 1]`), position 0 has the strictly longer history
window, yet its sampling weight `2^0 = 1` is strictly smaller than
position 1's weight `2^1 = 2` — not strictly greater as the claim
states, so the weighting favors shorter history. -/
theorem tage_alloc_weight_direction_cex :
    pred2.allocCandidates 0 .Base = [0, 1] ∧
    (pred2.comp.getD 0 defaultComp).d.csr.hi - (pred2.comp.getD 0 defaultComp).d.csr.lo >
      (pred2.comp.getD 1 defaultComp).d.csr.hi - (pred2.comp.getD 1 defaultComp).d.csr.lo ∧
    ¬ (TAGEPredictor.allocWeight 0 > TAGEPredictor.allocWeight 1) := by decide

/-- Claim C4 (amended).  The tie-break samples the eligible set assigning
the candidate at position `j` of the ordered component list the weight
`2^j`; this weighting is toward *shorter* history: of two eligible
components, the one with the longer history window (smaller position
`j`) receives the strictly *smaller* sampling weight.  The multi-
candidate branch of `alloc` draws a position from exactly these
weights. -/
theorem tage_alloc_weights :
    (∀ j, TAGEPredictor.allocWeight j = 2 ^ j) ∧
    (∀ j1 j2, j1 < j2 →
      TAGEPredictor.allocWeight j1 < TAGEPredictor.allocWeight j2) ∧
    (∀ (p : TAGEPredictor) (pc : Nat) (provider : TAGEProvider)
       (sample : List Nat → Nat),
      provider ≠ .Tagged 0 →
      2 ≤ (p.allocCandidates pc provider).length →
      p.alloc pc provider sample =
        some ((p.allocCandidates pc provider).getD
          (sample ((p.allocCandidates pc provider).map TAGEPredictor.allocWeight)) 0)) := by
  refine ⟨fun j => ?_, fun j1 j2 h => ?_, fun p pc provider sample hp hlen => ?_⟩
  · simp [TAGEPredictor.allocWeight, Nat.shiftLeft_eq]
  · simp only [TAGEPredictor.allocWeight, Nat.shiftLeft_eq, Nat.one_mul]
    exact Nat.pow_lt_pow_right (by omega) h
  · have hne : (p.allocCandidates pc provider).isEmpty = false := by
      rcases hcand : p.allocCandidates pc provider with _ | ⟨a, rest⟩
      · rw [hcand] at hlen; simp at hlen
      · simp
    have hone : ((p.allocCandidates pc provider).length == 1) = false := by
      simp only [beq_eq_false_iff_ne, ne_eq]
      omega
    simp only [TAGEPredictor.alloc, if_neg hp, hne, Bool.false_eq_true, if_false,
      hone]

/-- Claim C4 witness: the amended clauses applied at concrete inputs — the
weight of position 3, the strict ordering of the weights of positions
0 and 1, and the multi-candidate equation for `pred2`. -/
theorem tage_alloc_weights_witness :
    TAGEPredictor.allocWeight 3 = 2 ^ 3 ∧
    TAGEPredictor.allocWeight 0 < TAGEPredictor.allocWeight 1 ∧
    pred2.alloc 0 .Base sample0 =
      some ((pred2.allocCandidates 0 .Base).getD
        (sample0 ((pred2.allocCandidates 0 .Base).map TAGEPredictor.allocWeight)) 0) :=
  ⟨tage_alloc_weights.1 3,
   tage_alloc_weights.2.1 0 1 (by decide),
   tage_alloc_weights.2.2 pred2 0 .Base sample0 (by decide) (by decide)⟩

/-- Claim C10 (confirmed).  With zero tagged components, the
`num_tagged_components() - 1` computed by `shortest_tagged_component`
underflows (`none` in the checked model, a panic in Rust); with at
least one tagged component the subtraction is defined and every
candidate position the allocation loop reads — all of them for a `Base`
provider, `[0, i-1]` for a valid `Tagged(i)` provider — is within the
bounds of the component list. -/
theorem alloc_range_bounds :
    (∀ p : TAGEPredictor, p.comp.length = 0 → p.shortestTaggedChecked = none) ∧
    (∀ p : TAGEPredictor, 0 < p.comp.length →
      p.shortestTaggedChecked = some p.shortest_tagged_component ∧
      (∀ provider : TAGEProvider,
        (∀ i, provider = .Tagged i → i < p.comp.length) →
        ∀ j ∈ p.allocRange provider, j < p.comp.length)) := by
  constructor
  · intro p h
    simp [TAGEPredictor.shortestTaggedChecked, h]
  · intro p hlen
    constructor
    · simp only [TAGEPredictor.shortestTaggedChecked,
        TAGEPredictor.shortest_tagged_component,
        TAGEPredictor.num_tagged_components]
      rw [if_neg (by omega)]
    · intro provider hvalid j hj
      cases provider with
      | Base =>
        simp only [TAGEPredictor.allocRange, List.mem_range,
          TAGEPredictor.shortest_tagged_component,
          TAGEPredictor.num_tagged_components] at hj
        omega
      | Tagged i =>
        have hi : i < p.comp.length := hvalid i rfl
        simp only [TAGEPredictor.allocRange, List.mem_range] at hj
        omega

/-- Claim C10 witness: the underflow clause applied to the empty
predictor, and the bounds clause applied to `pred2` with provider
`Tagged 1` at candidate position 0. -/
theorem alloc_range_bounds_witness :
    predEmpty.shortestTaggedChecked = none ∧
    pred2.shortestTaggedChecked = some pred2.shortest_tagged_component ∧
    (0 : Nat) < pred2.comp.length :=
  ⟨alloc_range_bounds.1 predEmpty rfl,
   (alloc_range_bounds.2 pred2 (by decide)).1,
   (alloc_range_bounds.2 pred2 (by decide)).2 (.Tagged 1)
     (fun i h => by cases h; decide) 0 (by decide)⟩

/-- The provider-penalty half of `update_incorrect` never touches the
reset counter. -/
lemma providerPenalty_reset_ctr (p : TAGEPredictor) (pc : Nat)
    (pr : TAGEPrediction) (o : Outcome) :
    (providerPenalty p pc pr o).reset_ctr = p.reset_ctr := by
  unfold providerPenalty
  cases pr.provider <;> rfl

/-- `update_correct` never touches the reset counter. -/
lemma update_correct_reset_ctr (p : TAGEPredictor) (pc : Nat)
    (pr : TAGEPrediction) (o : Outcome) :
    (p.update_correct pc pr o).reset_ctr = p.reset_ctr := by
  unfold TAGEPredictor.update_correct
  cases pr.provider <;> rfl

/-- The allocation phase keeps the reset counter at most 255 when it was
at most 255 before. -/
lemma allocPhase_reset_ctr_le (p : TAGEPredictor) (pc : Nat)
    (provider : TAGEProvider) (o : Outcome) (sample : List Nat → Nat)
    (h : p.reset_ctr ≤ 255) :
    (allocPhase p pc provider o sample).reset_ctr ≤ 255 := by
  unfold allocPhase
  cases p.alloc pc provider sample with
  | none => simpa using by omega
  | some idx => simpa using Nat.min_le_right _ _

/-- The correct/incorrect dispatch keeps the reset counter at most 255
when it was at most 255 before. -/
lemma updateCore_reset_ctr_le (p : TAGEPredictor) (pc : Nat)
    (pr : TAGEPrediction) (o : Outcome) (sample : List Nat → Nat)
    (h : p.reset_ctr ≤ 255) :
    (p.updateCore pc pr o sample).reset_ctr ≤ 255 := by
  unfold TAGEPredictor.updateCore
  split
  · unfold TAGEPredictor.update_incorrect
    exact allocPhase_reset_ctr_le _ _ _ _ _
      (by rw [providerPenalty_reset_ctr]; exact h)
  · rw [update_correct_reset_ctr]; exact h

/-- Claim C5 (confirmed).  The reset-counter lifecycle of
`TAGEPredictor::update`: (1) starting at most 255, the counter stays at
most 255 across a full update (it is a `Nat`, so it also never drops
below 0); (2) in the allocation phase of a misprediction, success sets
it to `min (reset_ctr + 1) 255` (saturating increment) and failure to
`reset_ctr - 1` (saturating decrement), the provider-penalty half
leaving it untouched; (3) whenever the dispatch phase leaves the
counter at 255, the reset phase zeroes it, zeroes the useful counter of
every entry of every tagged component, and preserves every entry's
saturating counter and tag; and (4) the full update is exactly the
reset phase applied after the dispatch, plus a clock tick that touches
neither the counter nor the components. -/
theorem tage_reset_ctr_lifecycle :
    (∀ (p : TAGEPredictor) (pc : Nat) (pr : TAGEPrediction) (o : Outcome)
       (sample : List Nat → Nat),
      p.reset_ctr ≤ 255 → (p.update pc pr o sample).reset_ctr ≤ 255) ∧
    (∀ (q : TAGEPredictor) (pc : Nat) (provider : TAGEProvider) (o : Outcome)
       (sample : List Nat → Nat),
      ((q.alloc pc provider sample).isSome →
        (allocPhase q pc provider o sample).reset_ctr = min (q.reset_ctr + 1) 255) ∧
      (q.alloc pc provider sample = none →
        (allocPhase q pc provider o sample).reset_ctr = q.reset_ctr - 1)) ∧
    (∀ (p : TAGEPredictor) (pc : Nat) (pr : TAGEPrediction) (o : Outcome),
      (providerPenalty p pc pr o).reset_ctr = p.reset_ctr) ∧
    (∀ q : TAGEPredictor, q.reset_ctr = 255 →
      (TAGEPredictor.resetPhase q).reset_ctr = 0 ∧
      (∀ c ∈ (TAGEPredictor.resetPhase q).comp, ∀ e ∈ c.d.data, e.useful = 0) ∧
      (TAGEPredictor.resetPhase q).comp.map (fun c => c.d.data.map (fun e => (e.ctr, e.tag))) =
        q.comp.map (fun c => c.d.data.map (fun e => (e.ctr, e.tag)))) ∧
    (∀ (p : TAGEPredictor) (pc : Nat) (pr : TAGEPrediction) (o : Outcome)
       (sample : List Nat → Nat),
      (p.update pc pr o sample).reset_ctr =
        (TAGEPredictor.resetPhase (p.updateCore pc pr o sample)).reset_ctr ∧
      (p.update pc pr o sample).comp =
        (TAGEPredictor.resetPhase (p.updateCore pc pr o sample)).comp) := by
  refine ⟨?_, ?_, providerPenalty_reset_ctr, ?_, fun p pc pr o sample => ⟨rfl, rfl⟩⟩
  · intro p pc pr o sample h
    show (TAGEPredictor.resetPhase (p.updateCore pc pr o sample)).reset_ctr ≤ 255
    unfold TAGEPredictor.resetPhase
    split
    · simp
    · exact updateCore_reset_ctr_le p pc pr o sample h
  · intro q pc provider o sample
    constructor
    · intro hsome
      unfold allocPhase
      cases halloc : q.alloc pc provider sample with
      | none => rw [halloc] at hsome; exact absurd hsome (by simp)
      | some idx => rfl
    · intro hnone
      unfold allocPhase
      rw [hnone]
  · intro q hq
    unfold TAGEPredictor.resetPhase
    rw [if_pos hq]
    refine ⟨rfl, ?_, ?_⟩
    · intro c hc e he
      simp only [List.mem_map] at hc
      rcases hc with ⟨c0, _, rfl⟩
      simp only [TAGEComponent.reset_useful_bits, List.mem_map] at he
      rcases he with ⟨e0, _, rfl⟩
      rfl
    · simp only [List.map_map]
      congr 1
      funext c
      simp only [Function.comp, TAGEComponent.reset_useful_bits, List.map_map]
      exact List.map_congr_left (fun e _ => rfl)

/-- Claim C5 witness: clause (1) applied to `pred2` with a base-provider
misprediction, and clause (3) applied to `pred255`, whose reset counter
is saturated; hypotheses are discharged by computation. -/
theorem tage_reset_ctr_lifecycle_witness :
    (pred2.update 0 pr0 .T sample0).reset_ctr ≤ 255 ∧
    (TAGEPredictor.resetPhase pred255).reset_ctr = 0 :=
  ⟨tage_reset_ctr_lifecycle.1 pred2 0 pr0 .T sample0 (by decide),
   (tage_reset_ctr_lifecycle.2.2.2.1 pred255 (by decide)).1⟩

